import Mathlib

/-!
Verification of the target-resolution and nickname/group registry subsystem of
govee-cli (src/govee-cli.py) against its specification.

The Python code is shallowly embedded: JSON values become the inductive `J`,
Python dicts become association lists with unique keys (JSON parsing and dict
construction guarantee key uniqueness, which theorems assume explicitly where
needed), raised `GoveeError`s become `Except Err`, and the persisted config
file becomes a `FileState` (missing / syntactically malformed / parsed
document), modelling the outcome of `open` + `json.load` at the stdlib
boundary.  The external collaborators (HTTP transport, device listing,
control-send) are passed in as explicit data / functions, following the spec,
which treats them as consumed capabilities.
-/

namespace Govee

/-- A device reference: the `{"id": ..., "model": ...}` objects the registry
stores for nicknames and inline group members. -/
structure DeviceRef where
  id : String
  model : String
deriving DecidableEq, Repr

/-- JSON values, as far as the config file and registry operations need them:
strings, integers, arrays and objects.  Objects are association lists in
document order. -/
inductive J where
  | str : String → J
  | num : Int → J
  | arr : List J → J
  | obj : List (String × J) → J
deriving Repr

/-- The abstract error kinds of the spec's taxonomy (§7).  Each constructor
corresponds to one `raise GoveeError(...)` site of the registry/resolution
core and carries the data the raised message interpolates. -/
inductive Err where
  | ambiguousSelector
  | unknownGroup : String → Err
  | groupUnknownNickname : String → String → Err
  | invalidGroupMember : String → J → Err
  | emptyGroup : String → Err
  | unknownNickname : String → Err
  | ambiguousAutoDetect
  | configCorrupt : String → String → Err
  | noMembersGiven
  | invalidPair : String → Err
deriving Repr

/-- The observable state of the persisted config file at the point
`_load_raw_config` opens it: absent, present but rejected by the JSON parser
(with the error message of the parser), or parsed to a JSON object.  `json.load`
yields dicts, so a parsed document is an association list with unique keys. -/
inductive FileState where
  | missing
  | malformed : String → FileState
  | parsed : List (String × J) → FileState

/-- One device as returned by the external `listDevices` collaborator; the
spec fixes the interface `{ id, model, ... }`, of which `guess_single_h6008`
reads the `device` and `model` fields. -/
structure ApiDevice where
  device : String
  model : String
deriving DecidableEq, Repr

/-- The per-target line `_apply_to_targets` prints for one target: the JSON
result on success, the stringified `GoveeError` on failure. -/
inductive TargetResult where
  | success : String → String → J → TargetResult
  | failure : String → String → String → TargetResult
deriving Repr

/-- `GROUPS_KEY`: the reserved top-level key holding the group mapping. -/
def GROUPS_KEY : String := "_groups"

/-- `CONFIG_PATH` (modulo `os.path.expanduser`, which only substitutes the
environment's home directory into the same path). -/
def CONFIG_PATH : String := "~/.config/govee_devices.json"

/-- Python dict lookup `d.get(k)` on an association list (keys are unique, so
first match is the binding). -/
def dget {α : Type} (l : List (String × α)) (k : String) : Option α :=
  (l.find? (fun p => p.1 == k)).map (fun p => p.2)

/-- Python `k in d`. -/
def keyMem {α : Type} (l : List (String × α)) (k : String) : Bool :=
  l.any (fun p => p.1 == k)

/-- Python `d[k] = v`: replace the binding in place if the key is present,
append it otherwise. -/
def dictSet {α : Type} (l : List (String × α)) (k : String) (v : α) :
    List (String × α) :=
  if keyMem l k then l.map (fun p => if p.1 = k then (k, v) else p)
  else l ++ [(k, v)]

/-- Lexicographic comparison of char lists by code point, the order Python
uses for `str` comparison.  (Lean's built-in `String` order is implemented
externally and does not reduce in the kernel, so we spell it out.) -/
def charListLe : List Char → List Char → Bool
  | [], _ => true
  | _ :: _, [] => false
  | a :: as, b :: bs =>
    if a.toNat = b.toNat then charListLe as bs else decide (a.toNat < b.toNat)

/-- Python `a <= b` on strings. -/
def strLe (a b : String) : Bool :=
  charListLe a.toList b.toList

/-- Ordering of dict items by key, as used by `sorted(devmap.items())`: keys
are unique in a dict, so tuple comparison is decided by the key. -/
def keyLe {α : Type} (a b : String × α) : Prop :=
  strLe a.1 b.1 = true

instance {α : Type} : DecidableRel (@keyLe α) :=
  fun a b => instDecidableEqBool (strLe a.1 b.1) true

/-- Python `sorted(d.items())`: a stable sort of the items by key. -/
def sortByKey {α : Type} (l : List (String × α)) : List (String × α) :=
  List.insertionSort keyLe l

/-- Python `str(v)` applied to a JSON value, as `load_config_devices` and
`resolve_targets` apply it to the `id`/`model` fields.  It is faithful on
strings and integers; the registry stores strings there, and no claim
evaluates it on a container, so containers map to a placeholder rather than
Python's `repr`-style rendering. -/
def jStr : J → String
  | .str s => s
  | .num n => toString n
  | .arr _ => ""
  | .obj _ => ""

/-- The JSON object a `DeviceRef` is persisted as. -/
def devToJ (d : DeviceRef) : J :=
  .obj [("id", .str d.id), ("model", .str d.model)]

/-- The test + conversion `load_config_devices` applies to a top-level value:
`isinstance(v, dict) and "id" in v and "model" in v`, then
`{"id": str(v["id"]), "model": str(v["model"])}`. -/
def devEntryOf (v : J) : Option DeviceRef :=
  match v with
  | .obj kvs =>
    match dget kvs "id", dget kvs "model" with
    | some i, some m => some ⟨jStr i, jStr m⟩
    | _, _ => none
  | _ => none

/-- `_load_raw_config`: missing file yields `{}`, a JSON parse failure raises
`GoveeError(f"Config JSON is invalid at {CONFIG_PATH}: {e}")`, otherwise the
parsed document is returned. -/
def load_raw_config : FileState → Except Err (List (String × J))
  | .missing => .ok []
  | .malformed e => .error (.configCorrupt CONFIG_PATH e)
  | .parsed doc => .ok doc

/-- `load_config_devices`: keep the top-level entries other than `GROUPS_KEY`
that are dicts containing `"id"` and `"model"`, in document order. -/
def load_config_devices (fs : FileState) :
    Except Err (List (String × DeviceRef)) :=
  (load_raw_config fs).map (fun data =>
    data.filterMap (fun kv =>
      if kv.1 = GROUPS_KEY then none
      else (devEntryOf kv.2).map (fun d => (kv.1, d))))

/-- `load_config_groups`: `data.get(GROUPS_KEY, {})`, raising
a `GoveeError` naming the path and the expected shape when the value is
present but not a dict. -/
def load_config_groups (fs : FileState) : Except Err (List (String × J)) :=
  match load_raw_config fs with
  | .error e => .error e
  | .ok data =>
    match dget data GROUPS_KEY with
    | none => .ok []
    | some (.obj kvs) => .ok kvs
    | some _ =>
      .error (.configCorrupt CONFIG_PATH
        ("has invalid " ++ GROUPS_KEY ++ " format. Expected an object."))

/-- `save_full_config`, modelled as the JSON document it persists:
`payload = dict(sorted(devmap.items())); payload[GROUPS_KEY] = groups`.
(`json.dump(..., sort_keys=True)` then serializes the document with the keys
of every object sorted; re-parsing yields dicts equal by value, and no loader
observes nested key order, so the document is modelled pre-serialization.
The write-to-temp-then-`os.replace` discipline is filesystem plumbing outside
the embedding.) -/
def save_full_config (devmap : List (String × DeviceRef))
    (groups : List (String × J)) : List (String × J) :=
  let payload := sortByKey (devmap.map (fun kv => (kv.1, devToJ kv.2)))
  dictSet payload GROUPS_KEY (.obj groups)

/-- `names_add`: `devmap[nick] = {"id": ..., "model": ...}` then save; the
result is the document written to disk. -/
def names_add (devmap : List (String × DeviceRef)) (groups : List (String × J))
    (nick devId mdl : String) : List (String × J) :=
  save_full_config (dictSet devmap nick ⟨devId, mdl⟩) groups

/-- The per-member keep test of the pruning comprehension in `names_remove`:
`not (isinstance(m, str) and m == nick)`. -/
def keepMember (nick : String) (m : J) : Bool :=
  match m with
  | .str s => !(s == nick)
  | _ => true

/-- `names_remove`: `none` when the nickname is absent (the code prints and
returns without saving); otherwise the nickname binding is deleted and every
group's member list is filtered, and the new registry is saved.  Group values
are member lists here, as the code iterates them. -/
def names_remove (devmap : List (String × DeviceRef))
    (groups : List (String × List J)) (nick : String) :
    Option (List (String × DeviceRef) × List (String × List J)) :=
  if keyMem devmap nick then
    let devmap' := devmap.eraseP (fun p => p.1 == nick)
    let groups' := groups.map (fun gp => (gp.1, gp.2.filter (keepMember nick)))
    some (devmap', groups')
  else none

/-- Split a char list at its first colon; `none` when there is none.  This is
`p.split(":", 1)` guarded by `":" in p`. -/
def splitColon : List Char → Option (List Char × List Char)
  | [] => none
  | c :: cs =>
    if c = ':' then some ([], cs)
    else
      match splitColon cs with
      | none => none
      | some (a, b) => some (c :: a, b)

/-- `_parse_pairs`: `None` and `[]` yield `[]`; each pair must contain `":"`
and is split on the first `":"` into id and model. -/
def parse_pairs : Option (List String) → Except Err (List J)
  | none => .ok []
  | some ps => ps.mapM (fun p =>
      match splitColon p.toList with
      | none => .error (.invalidPair p)
      | some (d, rest) => .ok (.obj [("id", .str ⟨d⟩), ("model", .str ⟨rest⟩)]))

/-- `groups_add_members`: check the group exists, parse the pairs, reject an
empty request, validate every nickname against the nickname directory before
any mutation, then extend the member list with the nicknames (as strings)
followed by the parsed pairs and save. -/
def groups_add_members (devmap : List (String × DeviceRef))
    (groups : List (String × List J)) (gname : String)
    (names? pairs? : Option (List String)) :
    Except Err (List (String × List J)) :=
  if !(keyMem groups gname) then .error (.unknownGroup gname)
  else
    let names := names?.getD []
    match parse_pairs pairs? with
    | .error e => .error e
    | .ok pairs =>
      if names.isEmpty && pairs.isEmpty then .error .noMembersGiven
      else
        match names.find? (fun n => !(keyMem devmap n)) with
        | some n => .error (.unknownNickname n)
        | none =>
          let members := (dget groups gname).getD []
          .ok (dictSet groups gname (members ++ names.map J.str ++ pairs))

/-- Python truthiness of an `Optional[str]` argument: falsy when `None` or
the empty string. -/
def truthy : Option String → Bool
  | none => false
  | some s => !(s == "")

/-- `guess_single_h6008` applied to the account's device items: filter to
model `"H6008"` and return the device only when the filtered list is a
singleton. -/
def guess_single_h6008 (items : List ApiDevice) : Option (String × String) :=
  let h6008 := items.filter (fun d => d.model == "H6008")
  match h6008 with
  | [d] => some (d.device, d.model)
  | _ => none

/-- `resolve_single_target`: nickname lookup when `name` is truthy, then the
explicit pair when both `device` and `model` are truthy, then auto-detection
against the account's device list. -/
def resolve_single_target (devmap : List (String × DeviceRef))
    (account : List ApiDevice) (name device model : Option String) :
    Except Err (String × String) :=
  if truthy name then
    let n := name.getD ""
    match dget devmap n with
    | none => .error (.unknownNickname n)
    | some ent => .ok (ent.id, ent.model)
  else if truthy device && truthy model then
    .ok (device.getD "", model.getD "")
  else
    match guess_single_h6008 account with
    | some dm => .ok dm
    | none => .error .ambiguousAutoDetect

/-- The member loop of the group branch of `resolve_targets`: walk the stored
member list, appending the resolution of each member to the accumulator, raising
at the first member that is a dangling nickname or has an invalid shape. -/
def resolveLoop (devmap : List (String × DeviceRef)) (g : String)
    (acc : List (String × String)) : List J → Except Err (List (String × String))
  | [] => .ok acc
  | m :: rest =>
    match m with
    | .str n =>
      match dget devmap n with
      | none => .error (.groupUnknownNickname g n)
      | some ent => resolveLoop devmap g (acc ++ [(ent.id, ent.model)]) rest
    | .obj kvs =>
      match dget kvs "id", dget kvs "model" with
      | some i, some md => resolveLoop devmap g (acc ++ [(jStr i, jStr md)]) rest
      | _, _ => .error (.invalidGroupMember g (.obj kvs))
    | m' => .error (.invalidGroupMember g m')

/-- `resolve_targets`: ambiguity check, then the group branch (lookup, member
loop, empty check), else the single-target path wrapped as a one-element
list. -/
def resolve_targets (devmap : List (String × DeviceRef))
    (groups : List (String × List J)) (account : List ApiDevice)
    (name device model group : Option String) :
    Except Err (List (String × String)) :=
  if truthy name && truthy group then .error .ambiguousSelector
  else if truthy group then
    let g := group.getD ""
    match dget groups g with
    | none => .error (.unknownGroup g)
    | some members =>
      match resolveLoop devmap g [] members with
      | .error e => .error e
      | .ok resolved =>
        if resolved.isEmpty then .error (.emptyGroup g) else .ok resolved
  else
    match resolve_single_target devmap account name device model with
    | .error e => .error e
    | .ok dm => .ok [dm]

/-- The resolution of one group member, as the spec describes it: a string
member resolves through the nickname directory, an object member carrying
`id` and `model` is used directly, anything else is invalid.  (Used to state
what the member loop computes.) -/
def resolveMember (devmap : List (String × DeviceRef)) (g : String) (m : J) :
    Except Err (String × String) :=
  match m with
  | .str n =>
    match dget devmap n with
    | none => .error (.groupUnknownNickname g n)
    | some ent => .ok (ent.id, ent.model)
  | .obj kvs =>
    match dget kvs "id", dget kvs "model" with
    | some i, some md => .ok (jStr i, jStr md)
    | _, _ => .error (.invalidGroupMember g (.obj kvs))
  | m' => .error (.invalidGroupMember g m')

/-- Error-propagating map over a list, stopping at the first failure. -/
def mapExcept {α β : Type} (f : α → Except Err β) : List α → Except Err (List β)
  | [] => .ok []
  | a :: as =>
    match f a with
    | .error e => .error e
    | .ok b =>
      match mapExcept f as with
      | .error e => .error e
      | .ok bs => .ok (b :: bs)

/-- `_apply_to_targets`: one call to the control-send collaborator per
target, each `GoveeError` caught and converted to that target's failure line;
the result lines, in target order. -/
def apply_to_targets (send : String → String → J → Except String J)
    (targets : List (String × String)) (cmd : J) : List TargetResult :=
  targets.map (fun t =>
    match send t.1 t.2 cmd with
    | .ok resp => .success t.1 t.2 resp
    | .error e => .failure t.1 t.2 e)

/-! ### Helper lemmas: the string order used by `sorted(...)` -/

theorem charListLe_total : ∀ xs ys, charListLe xs ys = true ∨ charListLe ys xs = true
  | [], _ => Or.inl rfl
  | _ :: _, [] => Or.inr rfl
  | a :: as, b :: bs => by
    by_cases h : a.toNat = b.toNat
    · have h' : b.toNat = a.toNat := h.symm
      rcases charListLe_total as bs with ih | ih
      · exact Or.inl (by simp [charListLe, h, ih])
      · exact Or.inr (by simp [charListLe, h', ih])
    · rcases Nat.lt_or_ge a.toNat b.toNat with hlt | hge
      · exact Or.inl (by simp [charListLe, h, hlt])
      · have h' : ¬ b.toNat = a.toNat := fun e => h e.symm
        have hgt : b.toNat < a.toNat := Nat.lt_of_le_of_ne hge h'
        exact Or.inr (by simp [charListLe, h', hgt])

theorem charListLe_trans :
    ∀ xs ys zs, charListLe xs ys = true → charListLe ys zs = true →
      charListLe xs zs = true
  | [], _, _ => by intro _ _; rfl
  | _ :: _, [], _ => by intro h _; simp [charListLe] at h
  | _ :: _, _ :: _, [] => by intro _ h; simp [charListLe] at h
  | a :: as, b :: bs, c :: cs => by
    intro h1 h2
    simp only [charListLe] at h1 h2 ⊢
    by_cases hab : a.toNat = b.toNat
    · rw [if_pos hab] at h1
      by_cases hbc : b.toNat = c.toNat
      · rw [if_pos hbc] at h2
        rw [if_pos (hab.trans hbc)]
        exact charListLe_trans as bs cs h1 h2
      · rw [if_neg hbc] at h2
        have h2' := of_decide_eq_true h2
        have hac : ¬ a.toNat = c.toNat := by omega
        rw [if_neg hac]
        exact decide_eq_true (by omega)
    · rw [if_neg hab] at h1
      have h1' := of_decide_eq_true h1
      by_cases hbc : b.toNat = c.toNat
      · have hac : ¬ a.toNat = c.toNat := by omega
        rw [if_neg hac]
        exact decide_eq_true (by omega)
      · rw [if_neg hbc] at h2
        have h2' := of_decide_eq_true h2
        have hac : ¬ a.toNat = c.toNat := by omega
        rw [if_neg hac]
        exact decide_eq_true (by omega)

theorem strLe_total (a b : String) : strLe a b = true ∨ strLe b a = true :=
  charListLe_total _ _

theorem strLe_trans {a b c : String} (h1 : strLe a b = true) (h2 : strLe b c = true) :
    strLe a c = true :=
  charListLe_trans _ _ _ h1 h2

instance {α : Type} : IsTotal (String × α) keyLe :=
  ⟨fun a b => strLe_total a.1 b.1⟩

instance {α : Type} : IsTrans (String × α) keyLe :=
  ⟨fun _ _ _ => strLe_trans⟩

/-! ### Helper lemmas: association-list dictionaries -/

theorem dget_nil {α : Type} (k : String) : dget ([] : List (String × α)) k = none := rfl

theorem dget_cons {α : Type} (p : String × α) (l : List (String × α)) (k : String) :
    dget (p :: l) k = if p.1 = k then some p.2 else dget l k := by
  by_cases h : p.1 = k
  · have hb : (p.1 == k) = true := by simpa using h
    simp [dget, List.find?, hb, h]
  · have hb : (p.1 == k) = false := by simpa using h
    simp [dget, List.find?, hb, h]

theorem keyMem_cons {α : Type} (p : String × α) (l : List (String × α)) (k : String) :
    keyMem (p :: l) k = ((p.1 == k) || keyMem l k) := by
  simp [keyMem]

theorem keyMem_true_iff {α : Type} {l : List (String × α)} {k : String} :
    keyMem l k = true ↔ ∃ p ∈ l, p.1 = k := by
  simp [keyMem, List.any_eq_true]

theorem dget_eq_none_iff {α : Type} {l : List (String × α)} {k : String} :
    dget l k = none ↔ keyMem l k = false := by
  induction l with
  | nil => simp [dget, keyMem]
  | cons p rest ih =>
    by_cases h : p.1 = k
    · have hb : (p.1 == k) = true := by simpa using h
      simp [dget_cons, keyMem_cons, h, hb]
    · have hb : (p.1 == k) = false := by simpa using h
      simp [dget_cons, keyMem_cons, h, hb, ih]

theorem dget_of_forall_ne {α : Type} {l : List (String × α)} {k : String}
    (h : ∀ p ∈ l, p.1 ≠ k) : dget l k = none := by
  rw [dget_eq_none_iff]
  rw [Bool.eq_false_iff]
  intro ht
  rcases keyMem_true_iff.mp ht with ⟨p, hp, he⟩
  exact h p hp he

theorem dget_map_values {α β : Type} (f : α → β) (l : List (String × α)) (k : String) :
    dget (l.map (fun p => (p.1, f p.2))) k = (dget l k).map f := by
  induction l with
  | nil => rfl
  | cons p rest ih =>
    by_cases h : p.1 = k
    · simp [dget_cons, h]
    · simp [dget_cons, h, ih]

theorem dget_perm {α : Type} {l l' : List (String × α)} (h : l.Perm l')
    (nd : (l.map Prod.fst).Nodup) (k : String) : dget l k = dget l' k := by
  induction h with
  | nil => rfl
  | cons x _ ih =>
    simp only [List.map_cons, List.nodup_cons] at nd
    by_cases hx : x.1 = k
    · simp [dget_cons, hx]
    · simp [dget_cons, hx, ih nd.2]
  | swap x y t =>
    simp only [List.map_cons, List.nodup_cons, List.mem_cons] at nd
    have hxy : y.1 ≠ x.1 := fun e => nd.1 (Or.inl e)
    by_cases hx : x.1 = k <;> by_cases hy : y.1 = k
    · exact absurd (hy.trans hx.symm) hxy
    · simp [dget_cons, hx, hy]
    · simp [dget_cons, hx, hy]
    · simp [dget_cons, hx, hy]
  | trans h1 _ ih1 ih2 =>
    have nd2 := ((h1.map Prod.fst).nodup_iff).mp nd
    exact (ih1 nd).trans (ih2 nd2)

theorem dget_append {α : Type} (l₁ l₂ : List (String × α)) (k : String) :
    dget (l₁ ++ l₂) k = (dget l₁ k).or (dget l₂ k) := by
  induction l₁ with
  | nil => simp [dget_nil]
  | cons p rest ih =>
    by_cases h : p.1 = k
    · simp [dget_cons, h]
    · simp [dget_cons, h, ih]

theorem dget_map_set_self {α : Type} {l : List (String × α)} {k : String} {v : α}
    (hmem : keyMem l k = true) :
    dget (l.map (fun p => if p.1 = k then (k, v) else p)) k = some v := by
  induction l with
  | nil => simp [keyMem] at hmem
  | cons p rest ih =>
    by_cases h : p.1 = k
    · simp [h, dget_cons]
    · have hb : (p.1 == k) = false := by simpa using h
      have hrest : keyMem rest k = true := by
        simpa [keyMem_cons, hb] using hmem
      simp [dget_cons, h, ih hrest]

theorem dget_map_set_ne {α : Type} (l : List (String × α)) (k : String) (v : α)
    (k' : String) (h : k' ≠ k) :
    dget (l.map (fun p => if p.1 = k then (k, v) else p)) k' = dget l k' := by
  induction l with
  | nil => rfl
  | cons p rest ih =>
    by_cases hp : p.1 = k
    · have hk : ¬ (k = k') := fun e => h e.symm
      have hp' : ¬ (p.1 = k') := fun e => h (e.symm.trans hp)
      simp [hp, dget_cons, hk, hp', ih]
    · by_cases hp' : p.1 = k'
      · have hk : ¬ (k' = k) := h
        simp [hp, dget_cons, hp', hk]
      · simp [hp, dget_cons, hp', ih]

theorem dget_dictSet_self {α : Type} (l : List (String × α)) (k : String) (v : α) :
    dget (dictSet l k v) k = some v := by
  unfold dictSet
  by_cases hmem : keyMem l k
  · rw [if_pos hmem]
    exact dget_map_set_self hmem
  · rw [if_neg hmem, dget_append]
    rw [dget_eq_none_iff.mpr (by simpa using hmem)]
    simp [dget_cons]

theorem dget_dictSet_ne {α : Type} (l : List (String × α)) (k : String) (v : α)
    (k' : String) (h : k' ≠ k) : dget (dictSet l k v) k' = dget l k' := by
  unfold dictSet
  by_cases hmem : keyMem l k
  · rw [if_pos hmem]
    exact dget_map_set_ne l k v k' h
  · rw [if_neg hmem, dget_append]
    have hk : ¬ (k = k') := fun e => h e.symm
    have : dget [(k, v)] k' = none := by
      simp [dget_cons, hk, dget_nil]
    simp [this]

theorem dget_eraseP_self {α : Type} {l : List (String × α)} {k : String}
    (nd : (l.map Prod.fst).Nodup) :
    dget (l.eraseP (fun p => p.1 == k)) k = none := by
  induction l with
  | nil => rfl
  | cons p rest ih =>
    simp only [List.map_cons, List.nodup_cons] at nd
    by_cases h : p.1 = k
    · rw [List.eraseP_cons_of_pos (by simpa using h)]
      apply dget_of_forall_ne
      intro q hq e
      exact nd.1 ((h.trans e.symm) ▸ List.mem_map_of_mem Prod.fst hq)
    · rw [List.eraseP_cons_of_neg (by simpa using h)]
      simp [dget_cons, h, ih nd.2]

theorem dget_eraseP_ne {α : Type} (l : List (String × α)) (k k' : String)
    (h : k' ≠ k) : dget (l.eraseP (fun p => p.1 == k)) k' = dget l k' := by
  induction l with
  | nil => rfl
  | cons p rest ih =>
    by_cases hp : p.1 = k
    · rw [List.eraseP_cons_of_pos (by simpa using hp)]
      have hp' : ¬ (p.1 = k') := fun e => h (e.symm.trans hp)
      simp [dget_cons, hp']
    · rw [List.eraseP_cons_of_neg (by simpa using hp)]
      by_cases hp' : p.1 = k'
      · simp [dget_cons, hp']
      · simp [dget_cons, hp', ih]

theorem filterMap_eq_self_of {α : Type} {f : α → Option α} :
    ∀ {l : List α}, (∀ x ∈ l, f x = some x) → l.filterMap f = l
  | [], _ => rfl
  | x :: xs, h => by
    rw [List.filterMap_cons, h x (List.mem_cons_self x xs),
      filterMap_eq_self_of (fun y hy => h y (List.mem_cons_of_mem x hy))]

/-! ### Helper lemmas: `mapExcept` and the member loop -/

theorem mapExcept_ok_length {α β : Type} {f : α → Except Err β} :
    ∀ {l : List α} {bs : List β}, mapExcept f l = .ok bs → bs.length = l.length := by
  intro l
  induction l with
  | nil => intro bs h; cases h; rfl
  | cons a as ih =>
    intro bs h
    unfold mapExcept at h
    cases hf : f a with
    | error e => rw [hf] at h; cases h
    | ok b =>
      rw [hf] at h
      cases hrest : mapExcept f as with
      | error e => rw [hrest] at h; cases h
      | ok bs' =>
        rw [hrest] at h
        cases h
        simpa using ih hrest

theorem mapExcept_ok_get {α β : Type} {f : α → Except Err β} :
    ∀ {l : List α} {bs : List β}, mapExcept f l = .ok bs →
      ∀ i (h1 : i < l.length) (h2 : i < bs.length),
        f (l.get ⟨i, h1⟩) = .ok (bs.get ⟨i, h2⟩) := by
  intro l
  induction l with
  | nil => intro bs _ i h1; exact absurd h1 (by simp)
  | cons a as ih =>
    intro bs h i h1 h2
    unfold mapExcept at h
    cases hf : f a with
    | error e => rw [hf] at h; cases h
    | ok b =>
      rw [hf] at h
      cases hrest : mapExcept f as with
      | error e => rw [hrest] at h; cases h
      | ok bs' =>
        rw [hrest] at h
        cases h
        cases i with
        | zero => simpa using hf
        | succ j => exact ih hrest j (by simpa using h1) (by simpa using h2)

theorem resolveLoop_eq (devmap : List (String × DeviceRef)) (g : String) :
    ∀ (ms : List J) (acc : List (String × String)),
      resolveLoop devmap g acc ms =
        (mapExcept (resolveMember devmap g) ms).map (fun l => acc ++ l)
  | [], acc => by simp [resolveLoop, mapExcept, Except.map]
  | m :: rest, acc => by
    cases m with
    | str n =>
      cases hn : dget devmap n with
      | none => simp [resolveLoop, mapExcept, resolveMember, hn, Except.map]
      | some ent =>
        rw [show resolveLoop devmap g acc (J.str n :: rest) =
            resolveLoop devmap g (acc ++ [(ent.id, ent.model)]) rest by
          simp [resolveLoop, hn]]
        rw [resolveLoop_eq devmap g rest (acc ++ [(ent.id, ent.model)])]
        simp only [mapExcept, resolveMember, hn]
        cases mapExcept (resolveMember devmap g) rest with
        | error e => simp [Except.map]
        | ok bs => simp [Except.map]
    | obj kvs =>
      cases hi : dget kvs "id" with
      | none => simp [resolveLoop, mapExcept, resolveMember, hi, Except.map]
      | some i =>
        cases hm : dget kvs "model" with
        | none => simp [resolveLoop, mapExcept, resolveMember, hi, hm, Except.map]
        | some md =>
          rw [show resolveLoop devmap g acc (J.obj kvs :: rest) =
              resolveLoop devmap g (acc ++ [(jStr i, jStr md)]) rest by
            simp [resolveLoop, hi, hm]]
          rw [resolveLoop_eq devmap g rest (acc ++ [(jStr i, jStr md)])]
          simp only [mapExcept, resolveMember, hi, hm]
          cases mapExcept (resolveMember devmap g) rest with
          | error e => simp [Except.map]
          | ok bs => simp [Except.map]
    | num n => simp [resolveLoop, mapExcept, resolveMember, Except.map]
    | arr xs => simp [resolveLoop, mapExcept, resolveMember, Except.map]

theorem resolveLoop_error_kinds (devmap : List (String × DeviceRef)) (g : String) :
    ∀ (ms : List J) (acc : List (String × String)) (e : Err),
      resolveLoop devmap g acc ms = .error e →
        (∃ n, e = .groupUnknownNickname g n) ∨ (∃ m, e = .invalidGroupMember g m)
  | [], _, _ => by intro h; cases h
  | m :: rest, acc, e => by
    intro h
    cases m with
    | str n =>
      cases hn : dget devmap n with
      | none =>
        rw [show resolveLoop devmap g acc (J.str n :: rest) =
            .error (.groupUnknownNickname g n) by simp [resolveLoop, hn]] at h
        cases h
        exact Or.inl ⟨n, rfl⟩
      | some ent =>
        rw [show resolveLoop devmap g acc (J.str n :: rest) =
            resolveLoop devmap g (acc ++ [(ent.id, ent.model)]) rest by
          simp [resolveLoop, hn]] at h
        exact resolveLoop_error_kinds devmap g rest _ e h
    | obj kvs =>
      cases hi : dget kvs "id" with
      | none =>
        rw [show resolveLoop devmap g acc (J.obj kvs :: rest) =
            .error (.invalidGroupMember g (.obj kvs)) by simp [resolveLoop, hi]] at h
        cases h
        exact Or.inr ⟨.obj kvs, rfl⟩
      | some i =>
        cases hm : dget kvs "model" with
        | none =>
          rw [show resolveLoop devmap g acc (J.obj kvs :: rest) =
              .error (.invalidGroupMember g (.obj kvs)) by simp [resolveLoop, hi, hm]] at h
          cases h
          exact Or.inr ⟨.obj kvs, rfl⟩
        | some md =>
          rw [show resolveLoop devmap g acc (J.obj kvs :: rest) =
              resolveLoop devmap g (acc ++ [(jStr i, jStr md)]) rest by
            simp [resolveLoop, hi, hm]] at h
          exact resolveLoop_error_kinds devmap g rest _ e h
    | num n =>
      rw [show resolveLoop devmap g acc (J.num n :: rest) =
          .error (.invalidGroupMember g (.num n)) by simp [resolveLoop]] at h
      cases h
      exact Or.inr ⟨.num n, rfl⟩
    | arr xs =>
      rw [show resolveLoop devmap g acc (J.arr xs :: rest) =
          .error (.invalidGroupMember g (.arr xs)) by simp [resolveLoop]] at h
      cases h
      exact Or.inr ⟨.arr xs, rfl⟩

/-! ### Helper lemmas: saving and re-loading the registry document -/

theorem devEntryOf_devToJ (d : DeviceRef) : devEntryOf (devToJ d) = some d := by
  cases d
  simp [devEntryOf, devToJ, dget_cons, jStr]

theorem sortByKey_map_values {α β : Type} (f : α → β) (l : List (String × α)) :
    (sortByKey l).map (fun p => (p.1, f p.2)) =
      sortByKey (l.map (fun p => (p.1, f p.2))) :=
  List.map_insertionSort (r := keyLe) (s := keyLe)
    (fun p => (p.1, f p.2)) l (fun _ _ _ _ => Iff.rfl)

theorem keyMem_of_perm {α : Type} {l l' : List (String × α)} (h : l.Perm l')
    (k : String) : keyMem l k = keyMem l' k := by
  rcases hb : keyMem l' k with _ | _
  · rw [Bool.eq_false_iff]
    intro ht
    rcases keyMem_true_iff.mp ht with ⟨p, hp, he⟩
    exact (Bool.eq_false_iff.mp hb) (keyMem_true_iff.mpr ⟨p, h.mem_iff.mp hp, he⟩)
  · rcases keyMem_true_iff.mp hb with ⟨p, hp, he⟩
    exact keyMem_true_iff.mpr ⟨p, h.mem_iff.mpr hp, he⟩

theorem keyMem_map_values {α β : Type} (f : α → β) (l : List (String × α))
    (k : String) : keyMem (l.map (fun p => (p.1, f p.2))) k = keyMem l k := by
  induction l with
  | nil => rfl
  | cons p rest ih => simp [keyMem_cons, ih]

theorem keyMem_eq_false_iff {α : Type} {l : List (String × α)} {k : String} :
    keyMem l k = false ↔ k ∉ l.map Prod.fst := by
  rw [← dget_eq_none_iff]
  constructor
  · intro h hk
    rcases List.mem_map.mp hk with ⟨p, hp, he⟩
    rw [dget_eq_none_iff, Bool.eq_false_iff] at h
    exact h (keyMem_true_iff.mpr ⟨p, hp, he⟩)
  · intro h
    exact dget_of_forall_ne (fun p hp e => h (e ▸ List.mem_map_of_mem Prod.fst hp))

theorem sortByKey_perm {α : Type} (l : List (String × α)) : (sortByKey l).Perm l :=
  List.perm_insertionSort keyLe l

theorem save_full_config_eq (devmap : List (String × DeviceRef))
    (groups : List (String × J)) (hng : GROUPS_KEY ∉ devmap.map Prod.fst) :
    save_full_config devmap groups =
      sortByKey (devmap.map (fun kv => (kv.1, devToJ kv.2))) ++
        [(GROUPS_KEY, J.obj groups)] := by
  unfold save_full_config
  have h1 : keyMem (devmap.map (fun kv => (kv.1, devToJ kv.2))) GROUPS_KEY = false := by
    rw [keyMem_map_values]
    exact keyMem_eq_false_iff.mpr hng
  have h2 : keyMem (sortByKey (devmap.map (fun kv => (kv.1, devToJ kv.2)))) GROUPS_KEY
      = false := by
    rw [keyMem_of_perm (sortByKey_perm _) GROUPS_KEY]
    exact h1
  simp only [dictSet, h2]
  simp

theorem load_devices_parsed (doc : List (String × J)) :
    load_config_devices (.parsed doc) =
      .ok (doc.filterMap (fun kv =>
        if kv.1 = GROUPS_KEY then none
        else (devEntryOf kv.2).map (fun d => (kv.1, d)))) := rfl

theorem filterMap_load_save (devmap : List (String × DeviceRef))
    (hng : GROUPS_KEY ∉ devmap.map Prod.fst) :
    (sortByKey (devmap.map (fun kv => (kv.1, devToJ kv.2)))).filterMap
      (fun kv => if kv.1 = GROUPS_KEY then none
                 else (devEntryOf kv.2).map (fun d => (kv.1, d))) =
      sortByKey devmap := by
  rw [← sortByKey_map_values, List.filterMap_map]
  apply filterMap_eq_self_of
  intro q hq
  have hq' : q ∈ devmap := (sortByKey_perm devmap).mem_iff.mp hq
  have hqk : q.1 ≠ GROUPS_KEY := by
    intro e
    exact hng (e ▸ List.mem_map_of_mem Prod.fst hq')
  simp [Function.comp, hqk, devEntryOf_devToJ]

theorem sortByKey_idem {α : Type} (l : List (String × α)) :
    sortByKey (sortByKey l) = sortByKey l :=
  (List.sorted_insertionSort keyLe l).insertionSort_eq

theorem resolve_targets_group_path (devmap : List (String × DeviceRef))
    (groups : List (String × List J)) (account : List ApiDevice)
    (name device model group : Option String)
    (hn : truthy name = false) (hg : truthy group = true) :
    resolve_targets devmap groups account name device model group =
      (match dget groups (group.getD "") with
       | none => .error (.unknownGroup (group.getD ""))
       | some members =>
         match resolveLoop devmap (group.getD "") [] members with
         | .error e => .error e
         | .ok resolved =>
           if resolved.isEmpty then .error (.emptyGroup (group.getD ""))
           else .ok resolved) := by
  unfold resolve_targets
  rw [hn, hg]
  simp

theorem resolve_targets_single_path (devmap : List (String × DeviceRef))
    (groups : List (String × List J)) (account : List ApiDevice)
    (name device model group : Option String)
    (hn : truthy name = false) (hg : truthy group = false) :
    resolve_targets devmap groups account name device model group =
      (match resolve_single_target devmap account name device model with
       | .error e => .error e
       | .ok dm => .ok [dm]) := by
  unfold resolve_targets
  rw [hn, hg]
  simp

/-! ### Claim theorems -/

/-- C5: for every selector in which both a name and a group are supplied,
target resolution fails with `AmbiguousSelector`, regardless of the registry
contents — whether or not the name or the group actually exists. -/
theorem resolve_targets_both_selectors_ambiguous
    (devmap : List (String × DeviceRef)) (groups : List (String × List J))
    (account : List ApiDevice) (name device model group : Option String)
    (hn : truthy name = true) (hg : truthy group = true) :
    resolve_targets devmap groups account name device model group =
      .error .ambiguousSelector := by
  simp [resolve_targets, hn, hg]

theorem resolve_targets_both_selectors_ambiguous_witness :
    truthy (some "nope") = true ∧ truthy (some "ghost") = true ∧
    resolve_targets [] [] [] (some "nope") none none (some "ghost") =
      .error .ambiguousSelector :=
  ⟨rfl, rfl,
    resolve_targets_both_selectors_ambiguous [] [] [] (some "nope") none none
      (some "ghost") rfl rfl⟩

/-- C9: an empty-string selector value is treated as absent, not as supplied:
resolving with `name = ""` behaves exactly as resolving with no name — with a
non-empty group it does not fail with `AmbiguousSelector` (the group path is
taken), and alone it does not fail with `UnknownNickname` but falls through
to the explicit-pair or auto-detect path. -/
theorem resolve_targets_empty_name_absent
    (devmap : List (String × DeviceRef)) (groups : List (String × List J))
    (account : List ApiDevice) (device model group : Option String) :
    (resolve_targets devmap groups account (some "") device model group =
      resolve_targets devmap groups account none device model group) ∧
    (truthy group = true →
      resolve_targets devmap groups account (some "") device model group ≠
        .error .ambiguousSelector) ∧
    (truthy group = false → ∀ n,
      resolve_targets devmap groups account (some "") device model group ≠
        .error (.unknownNickname n)) := by
  have hts : truthy (some "") = false := rfl
  refine ⟨by simp [resolve_targets, resolve_single_target, hts, truthy], ?_, ?_⟩
  · intro hg
    rw [resolve_targets_group_path devmap groups account _ device model group hts hg]
    cases hdg : dget groups (group.getD "") with
    | none => simp
    | some members =>
      cases hloop : resolveLoop devmap (group.getD "") [] members with
      | error e =>
        intro hcontra
        simp only [hloop] at hcontra
        rcases resolveLoop_error_kinds devmap _ members [] e hloop with ⟨n, he⟩ | ⟨m, he⟩ <;>
          simp [he] at hcontra
      | ok resolved =>
        intro hcontra
        simp only [hloop] at hcontra
        cases hres : resolved.isEmpty <;> simp [hres] at hcontra
  · intro hg n
    rw [resolve_targets_single_path devmap groups account _ device model group hts hg]
    unfold resolve_single_target
    rw [hts]
    by_cases hp : (truthy device && truthy model) = true
    · simp [hp]
    · have hp' : (truthy device && truthy model) = false := by
        simpa using hp
      cases hguess : guess_single_h6008 account with
      | none => simp [hp', hguess]
      | some dm => simp [hp', hguess]

theorem resolve_targets_empty_name_absent_witness :
    (resolve_targets [] [("room", [J.obj [("id", J.str "x"), ("model", J.str "M")]])]
        [] (some "") none none (some "room") =
      resolve_targets [] [("room", [J.obj [("id", J.str "x"), ("model", J.str "M")]])]
        [] none none none (some "room")) ∧
    (truthy (some "room") = true →
      resolve_targets [] [("room", [J.obj [("id", J.str "x"), ("model", J.str "M")]])]
        [] (some "") none none (some "room") ≠ .error .ambiguousSelector) ∧
    (truthy (some "room") = false → ∀ n,
      resolve_targets [] [("room", [J.obj [("id", J.str "x"), ("model", J.str "M")]])]
        [] (some "") none none (some "room") ≠ .error (.unknownNickname n)) :=
  resolve_targets_empty_name_absent [] _ [] none none (some "room")

/-- C6: with no name, no group and no complete explicit pair, resolution
filters the account's devices to the auto-detectable model `H6008`: exactly
one match resolves to that device as a one-element target list, zero or more
than one match fails with `AmbiguousAutoDetect`. -/
theorem resolve_targets_autodetect
    (devmap : List (String × DeviceRef)) (groups : List (String × List J))
    (account : List ApiDevice) (name device model group : Option String)
    (hn : truthy name = false) (hg : truthy group = false)
    (hp : (truthy device && truthy model) = false) :
    (∀ d, account.filter (fun x => x.model == "H6008") = [d] →
      resolve_targets devmap groups account name device model group =
        .ok [(d.device, d.model)]) ∧
    ((account.filter (fun x => x.model == "H6008")).length ≠ 1 →
      resolve_targets devmap groups account name device model group =
        .error .ambiguousAutoDetect) := by
  constructor
  · intro d hfilter
    simp [resolve_targets, hn, hg, resolve_single_target, hp,
      guess_single_h6008, hfilter]
  · intro hlen
    have hguess : guess_single_h6008 account = none := by
      unfold guess_single_h6008
      cases hf : account.filter (fun x => x.model == "H6008") with
      | nil => rfl
      | cons d rest =>
        cases rest with
        | nil => exact absurd (by rw [hf]; rfl) hlen
        | cons d' rest' => rfl
    simp [resolve_targets, hn, hg, resolve_single_target, hp, hguess]

theorem resolve_targets_autodetect_witness :
    truthy none = false ∧ (truthy none && truthy none) = false ∧
    (∀ d, (([⟨"dev1", "H6008"⟩, ⟨"dev2", "H1"⟩] : List ApiDevice).filter
        (fun x => x.model == "H6008")) = [d] →
      resolve_targets [] [] [⟨"dev1", "H6008"⟩, ⟨"dev2", "H1"⟩]
        none none none none = .ok [(d.device, d.model)]) ∧
    ((([⟨"dev1", "H6008"⟩, ⟨"dev2", "H1"⟩] : List ApiDevice).filter
        (fun x => x.model == "H6008")).length ≠ 1 →
      resolve_targets [] [] [⟨"dev1", "H6008"⟩, ⟨"dev2", "H1"⟩]
        none none none none = .error .ambiguousAutoDetect) :=
  ⟨rfl, rfl,
    (resolve_targets_autodetect [] [] [⟨"dev1", "H6008"⟩, ⟨"dev2", "H1"⟩]
      none none none none rfl rfl rfl).1,
    (resolve_targets_autodetect [] [] [⟨"dev1", "H6008"⟩, ⟨"dev2", "H1"⟩]
      none none none none rfl rfl rfl).2⟩

/-- C1: for every registry and group selector, resolution fails with
`UnknownGroup` if the group is absent; otherwise it maps the stored member
list in order — a string member is replaced by the current binding of the
nickname directory (failing with `GroupReferencesUnknownNickname` naming the
group and the nickname when the binding is absent), an `{id, model}` member
is kept as-is, any other shape fails with `InvalidGroupMember` — failing
with `EmptyGroup` if the resolved list is empty; on success the returned
targets follow the stored member order, one per member. -/
theorem resolve_targets_group_spec
    (devmap : List (String × DeviceRef)) (groups : List (String × List J))
    (account : List ApiDevice) (name device model : Option String) (g : String)
    (hn : truthy name = false) (hg : g ≠ "") :
    (dget groups g = none →
      resolve_targets devmap groups account name device model (some g) =
        .error (.unknownGroup g)) ∧
    (∀ members, dget groups g = some members →
      (∀ e, mapExcept (resolveMember devmap g) members = .error e →
        resolve_targets devmap groups account name device model (some g) =
          .error e) ∧
      (∀ ts, mapExcept (resolveMember devmap g) members = .ok ts →
        (ts = [] →
          resolve_targets devmap groups account name device model (some g) =
            .error (.emptyGroup g)) ∧
        (ts ≠ [] →
          resolve_targets devmap groups account name device model (some g) =
            .ok ts) ∧
        ts.length = members.length ∧
        (∀ i (h1 : i < members.length) (h2 : i < ts.length),
          resolveMember devmap g (members.get ⟨i, h1⟩) = .ok (ts.get ⟨i, h2⟩)))) ∧
    (∀ n ent, dget devmap n = some ent →
      resolveMember devmap g (.str n) = .ok (ent.id, ent.model)) ∧
    (∀ n, dget devmap n = none →
      resolveMember devmap g (.str n) = .error (.groupUnknownNickname g n)) ∧
    (∀ d : DeviceRef, resolveMember devmap g (devToJ d) = .ok (d.id, d.model)) ∧
    (∀ kvs, (dget kvs "id" = none ∨ dget kvs "model" = none) →
      resolveMember devmap g (.obj kvs) =
        .error (.invalidGroupMember g (.obj kvs))) ∧
    (∀ n : Int, resolveMember devmap g (.num n) =
      .error (.invalidGroupMember g (.num n))) ∧
    (∀ xs, resolveMember devmap g (.arr xs) =
      .error (.invalidGroupMember g (.arr xs))) := by
  have hbg : (g == "") = false := by simpa using hg
  have htg : truthy (some g) = true := by simp [truthy, hbg]
  have hpath := resolve_targets_group_path devmap groups account name device model
    (some g) hn htg
  simp only [Option.getD_some] at hpath
  refine ⟨?_, ?_, ?_, ?_, ?_, ?_, ?_, ?_⟩
  · intro h0
    simp [hpath, h0]
  · intro members hmem
    have hle := resolveLoop_eq devmap g members []
    constructor
    · intro e he
      rw [he] at hle
      simp only [Except.map] at hle
      simp [hpath, hmem, hle]
    · intro ts hts
      rw [hts] at hle
      simp only [Except.map, List.nil_append] at hle
      refine ⟨?_, ?_, mapExcept_ok_length hts, fun i h1 h2 => mapExcept_ok_get hts i h1 h2⟩
      · intro h0
        simp [hpath, hmem, hle, h0]
      · intro h0
        have h0' : ts.isEmpty = false := by
          cases ts with
          | nil => exact absurd rfl h0
          | cons a l => rfl
        simp [hpath, hmem, hle, h0']
  · intro n ent h
    simp [resolveMember, h]
  · intro n h
    simp [resolveMember, h]
  · intro d
    simp [resolveMember, devToJ, dget_cons, jStr]
  · intro kvs h
    rcases h with h | h
    · simp [resolveMember, h]
    · cases hid : dget kvs "id" <;> simp [resolveMember, hid, h]
  · intro n
    simp [resolveMember]
  · intro xs
    simp [resolveMember]

theorem resolve_targets_group_spec_witness :
    (dget [("room", [J.str "lamp"])] "room" = none →
      resolve_targets [("lamp", ⟨"d1", "H6008"⟩)] [("room", [J.str "lamp"])] []
        none none none (some "room") = .error (.unknownGroup "room")) ∧
    (∀ members, dget [("room", [J.str "lamp"])] "room" = some members →
      (∀ e, mapExcept (resolveMember [("lamp", ⟨"d1", "H6008"⟩)] "room") members =
          .error e →
        resolve_targets [("lamp", ⟨"d1", "H6008"⟩)] [("room", [J.str "lamp"])] []
          none none none (some "room") = .error e) ∧
      (∀ ts, mapExcept (resolveMember [("lamp", ⟨"d1", "H6008"⟩)] "room") members =
          .ok ts →
        (ts = [] →
          resolve_targets [("lamp", ⟨"d1", "H6008"⟩)] [("room", [J.str "lamp"])] []
            none none none (some "room") = .error (.emptyGroup "room")) ∧
        (ts ≠ [] →
          resolve_targets [("lamp", ⟨"d1", "H6008"⟩)] [("room", [J.str "lamp"])] []
            none none none (some "room") = .ok ts) ∧
        ts.length = members.length ∧
        (∀ i (h1 : i < members.length) (h2 : i < ts.length),
          resolveMember [("lamp", ⟨"d1", "H6008"⟩)] "room" (members.get ⟨i, h1⟩) =
            .ok (ts.get ⟨i, h2⟩)))) ∧
    (∀ n ent, dget ([("lamp", ⟨"d1", "H6008"⟩)] : List (String × DeviceRef)) n =
        some ent →
      resolveMember [("lamp", ⟨"d1", "H6008"⟩)] "room" (.str n) =
        .ok (ent.id, ent.model)) ∧
    (∀ n, dget ([("lamp", ⟨"d1", "H6008"⟩)] : List (String × DeviceRef)) n = none →
      resolveMember [("lamp", ⟨"d1", "H6008"⟩)] "room" (.str n) =
        .error (.groupUnknownNickname "room" n)) ∧
    (∀ d : DeviceRef, resolveMember [("lamp", ⟨"d1", "H6008"⟩)] "room" (devToJ d) =
      .ok (d.id, d.model)) ∧
    (∀ kvs, (dget kvs "id" = none ∨ dget kvs "model" = none) →
      resolveMember [("lamp", ⟨"d1", "H6008"⟩)] "room" (.obj kvs) =
        .error (.invalidGroupMember "room" (.obj kvs))) ∧
    (∀ n : Int, resolveMember [("lamp", ⟨"d1", "H6008"⟩)] "room" (.num n) =
      .error (.invalidGroupMember "room" (.num n))) ∧
    (∀ xs, resolveMember [("lamp", ⟨"d1", "H6008"⟩)] "room" (.arr xs) =
      .error (.invalidGroupMember "room" (.arr xs))) :=
  resolve_targets_group_spec [("lamp", ⟨"d1", "H6008"⟩)] [("room", [J.str "lamp"])]
    [] none none none "room" rfl (by decide)

/-- C8: dispatch produces exactly one result per target, the result at index
`i` is determined by the answer of the collaborator for target `i` alone (so a
failure on one target is captured as that target's per-target error result
and does not affect the others), and results follow target order. -/
theorem apply_to_targets_per_target
    (send send' : String → String → J → Except String J)
    (targets : List (String × String)) (cmd : J) (i : Nat)
    (hi : i < targets.length)
    (hagree : send (targets.get ⟨i, hi⟩).1 (targets.get ⟨i, hi⟩).2 cmd =
              send' (targets.get ⟨i, hi⟩).1 (targets.get ⟨i, hi⟩).2 cmd) :
    (apply_to_targets send targets cmd).length = targets.length ∧
    (apply_to_targets send targets cmd)[i]? =
      some (match send (targets.get ⟨i, hi⟩).1 (targets.get ⟨i, hi⟩).2 cmd with
            | .ok resp =>
              .success (targets.get ⟨i, hi⟩).1 (targets.get ⟨i, hi⟩).2 resp
            | .error e =>
              .failure (targets.get ⟨i, hi⟩).1 (targets.get ⟨i, hi⟩).2 e) ∧
    (apply_to_targets send targets cmd)[i]? =
      (apply_to_targets send' targets cmd)[i]? := by
  have ht : targets[i]? = some (targets.get ⟨i, hi⟩) := by
    rw [List.getElem?_eq_getElem hi]
    simp
  refine ⟨by simp [apply_to_targets], ?_, ?_⟩
  · unfold apply_to_targets
    rw [List.getElem?_map, ht]
    rfl
  · unfold apply_to_targets
    rw [List.getElem?_map, List.getElem?_map, ht]
    simp only [List.get_eq_getElem] at hagree
    simp [hagree]

theorem apply_to_targets_per_target_witness :
    (0 < ([("a", "A"), ("b", "B")] : List (String × String)).length) ∧
    ((apply_to_targets
        (fun d _ _ => if d == "a" then .error "boom" else .ok (.num 7))
        [("a", "A"), ("b", "B")] (.num 1)).length =
      ([("a", "A"), ("b", "B")] : List (String × String)).length ∧
    (apply_to_targets
        (fun d _ _ => if d == "a" then .error "boom" else .ok (.num 7))
        [("a", "A"), ("b", "B")] (.num 1))[0]? =
      some (match (fun (d : String) (_ : String) (_ : J) =>
              if d == "a" then Except.error "boom" else Except.ok (J.num 7))
              (([("a", "A"), ("b", "B")] : List (String × String)).get ⟨0, by decide⟩).1
              (([("a", "A"), ("b", "B")] : List (String × String)).get ⟨0, by decide⟩).2
              (.num 1) with
            | .ok resp =>
              .success (([("a", "A"), ("b", "B")] : List (String × String)).get
                ⟨0, by decide⟩).1
                (([("a", "A"), ("b", "B")] : List (String × String)).get ⟨0, by decide⟩).2
                resp
            | .error e =>
              .failure (([("a", "A"), ("b", "B")] : List (String × String)).get
                ⟨0, by decide⟩).1
                (([("a", "A"), ("b", "B")] : List (String × String)).get ⟨0, by decide⟩).2
                e) ∧
    (apply_to_targets
        (fun d _ _ => if d == "a" then .error "boom" else .ok (.num 7))
        [("a", "A"), ("b", "B")] (.num 1))[0]? =
      (apply_to_targets
        (fun d _ _ => if d == "a" then .error "boom" else .ok (.num 8))
        [("a", "A"), ("b", "B")] (.num 1))[0]?) :=
  ⟨by decide,
    apply_to_targets_per_target
      (fun d _ _ => if d == "a" then .error "boom" else .ok (.num 7))
      (fun d _ _ => if d == "a" then .error "boom" else .ok (.num 8))
      [("a", "A"), ("b", "B")] (.num 1) 0 (by decide) rfl⟩

theorem keyMem_append {α : Type} (l₁ l₂ : List (String × α)) (k : String) :
    keyMem (l₁ ++ l₂) k = (keyMem l₁ k || keyMem l₂ k) := by
  simp [keyMem, List.any_append]

/-- C3: adding members to an existing group fails with `NoMembersGiven` when
both input lists are empty; fails with `UnknownNickname` (with the whole
operation failing, hence no mutation) when any requested nickname is absent,
and succeeds only when every requested nickname exists; on success the
nicknames (as nickname references) followed by the parsed pairs (as inline
references) are appended, in the order given, duplicates allowed, and every
other group is untouched. -/
theorem groups_add_members_spec
    (devmap : List (String × DeviceRef)) (groups : List (String × List J))
    (gname : String) (names? pairs? : Option (List String)) (pdicts : List J)
    (hgrp : keyMem groups gname = true)
    (hpairs : parse_pairs pairs? = .ok pdicts) :
    ((names?.getD [] = [] ∧ pdicts = []) →
      groups_add_members devmap groups gname names? pairs? =
        .error .noMembersGiven) ∧
    ((∃ n ∈ names?.getD [], dget devmap n = none) →
      ∃ n ∈ names?.getD [], dget devmap n = none ∧
        groups_add_members devmap groups gname names? pairs? =
          .error (.unknownNickname n)) ∧
    (∀ gs', groups_add_members devmap groups gname names? pairs? = .ok gs' →
      ∀ n ∈ names?.getD [], keyMem devmap n = true) ∧
    ((∀ n ∈ names?.getD [], keyMem devmap n = true) →
      (names?.getD [] ≠ [] ∨ pdicts ≠ []) →
      ∀ old, dget groups gname = some old →
        groups_add_members devmap groups gname names? pairs? =
          .ok (dictSet groups gname
            (old ++ (names?.getD []).map J.str ++ pdicts)) ∧
        (∀ k, k ≠ gname →
          dget (dictSet groups gname
            (old ++ (names?.getD []).map J.str ++ pdicts)) k = dget groups k) ∧
        dget (dictSet groups gname
            (old ++ (names?.getD []).map J.str ++ pdicts)) gname =
          some (old ++ (names?.getD []).map J.str ++ pdicts)) := by
  have hmain : groups_add_members devmap groups gname names? pairs? =
      (if (names?.getD []).isEmpty && pdicts.isEmpty then .error .noMembersGiven
       else
         match (names?.getD []).find? (fun n => !(keyMem devmap n)) with
         | some n => .error (.unknownNickname n)
         | none =>
           .ok (dictSet groups gname
             ((dget groups gname).getD [] ++ (names?.getD []).map J.str ++
               pdicts))) := by
    unfold groups_add_members
    rw [hgrp, hpairs]
    simp
  refine ⟨?_, ?_, ?_, ?_⟩
  · rintro ⟨h1, h2⟩
    simp [hmain, h1, h2]
  · rintro ⟨n, hn, hdn⟩
    have hp : (!(keyMem devmap n)) = true := by
      rw [dget_eq_none_iff] at hdn
      simp [hdn]
    have hsome : ((names?.getD []).find? (fun n => !(keyMem devmap n))).isSome := by
      rw [List.find?_isSome]
      exact ⟨n, hn, hp⟩
    rcases Option.isSome_iff_exists.mp hsome with ⟨n', hfind⟩
    have hn'mem : n' ∈ names?.getD [] := List.mem_of_find?_eq_some hfind
    have hn'p := List.find?_some hfind
    have hn'none : dget devmap n' = none := by
      rw [dget_eq_none_iff]
      simpa using hn'p
    have hcond : ((names?.getD []).isEmpty && pdicts.isEmpty) = false := by
      have : (names?.getD []).isEmpty = false := by
        cases hnl : names?.getD [] with
        | nil => rw [hnl] at hn; cases hn
        | cons a l => rfl
      simp [this]
    exact ⟨n', hn'mem, hn'none, by simp [hmain, hcond, hfind]⟩
  · intro gs' hok n hn
    by_contra hkm
    have hkm' : keyMem devmap n = false := by
      cases h : keyMem devmap n
      · rfl
      · exact absurd h hkm
    have hp : (!(keyMem devmap n)) = true := by simp [hkm']
    have hsome : ((names?.getD []).find? (fun n => !(keyMem devmap n))).isSome := by
      rw [List.find?_isSome]
      exact ⟨n, hn, hp⟩
    rcases Option.isSome_iff_exists.mp hsome with ⟨n', hfind⟩
    cases hcond : ((names?.getD []).isEmpty && pdicts.isEmpty) with
    | true => rw [hmain] at hok; simp [hcond] at hok
    | false => rw [hmain] at hok; simp [hcond, hfind] at hok
  · intro hall hne old hold
    have hcond : ((names?.getD []).isEmpty && pdicts.isEmpty) = false := by
      cases hc : ((names?.getD []).isEmpty && pdicts.isEmpty)
      · rfl
      · have hc' : (names?.getD []).isEmpty = true ∧ pdicts.isEmpty = true := by
          simpa using hc
        rcases hne with h | h
        · exact absurd (List.isEmpty_iff.mp hc'.1) h
        · exact absurd (List.isEmpty_iff.mp hc'.2) h
    have hfind : (names?.getD []).find? (fun n => !(keyMem devmap n)) = none := by
      rw [List.find?_eq_none]
      intro x hx
      simp [hall x hx]
    refine ⟨by simp [hmain, hcond, hfind, hold], ?_, ?_⟩
    · intro k hk
      exact dget_dictSet_ne groups gname _ k hk
    · exact dget_dictSet_self groups gname _

theorem groups_add_members_spec_witness :
    keyMem ([("room", [J.str "lamp"])] : List (String × List J)) "room" = true ∧
    parse_pairs (some ["x:H1"]) =
      .ok [J.obj [("id", J.str "x"), ("model", J.str "H1")]] ∧
    (((some ["lamp"] : Option (List String)).getD [] = [] ∧
        ([J.obj [("id", J.str "x"), ("model", J.str "H1")]] : List J) = []) →
      groups_add_members [("lamp", ⟨"d1", "H6008"⟩)] [("room", [J.str "lamp"])]
        "room" (some ["lamp"]) (some ["x:H1"]) = .error .noMembersGiven) ∧
    ((∃ n ∈ (some ["lamp"] : Option (List String)).getD [],
        dget ([("lamp", ⟨"d1", "H6008"⟩)] : List (String × DeviceRef)) n = none) →
      ∃ n ∈ (some ["lamp"] : Option (List String)).getD [],
        dget ([("lamp", ⟨"d1", "H6008"⟩)] : List (String × DeviceRef)) n = none ∧
        groups_add_members [("lamp", ⟨"d1", "H6008"⟩)] [("room", [J.str "lamp"])]
          "room" (some ["lamp"]) (some ["x:H1"]) = .error (.unknownNickname n)) ∧
    (∀ gs', groups_add_members [("lamp", ⟨"d1", "H6008"⟩)]
        [("room", [J.str "lamp"])] "room" (some ["lamp"]) (some ["x:H1"]) =
          .ok gs' →
      ∀ n ∈ (some ["lamp"] : Option (List String)).getD [],
        keyMem ([("lamp", ⟨"d1", "H6008"⟩)] : List (String × DeviceRef)) n = true) ∧
    ((∀ n ∈ (some ["lamp"] : Option (List String)).getD [],
        keyMem ([("lamp", ⟨"d1", "H6008"⟩)] : List (String × DeviceRef)) n = true) →
      ((some ["lamp"] : Option (List String)).getD [] ≠ [] ∨
        ([J.obj [("id", J.str "x"), ("model", J.str "H1")]] : List J) ≠ []) →
      ∀ old, dget ([("room", [J.str "lamp"])] : List (String × List J)) "room" =
          some old →
        groups_add_members [("lamp", ⟨"d1", "H6008"⟩)] [("room", [J.str "lamp"])]
          "room" (some ["lamp"]) (some ["x:H1"]) =
          .ok (dictSet [("room", [J.str "lamp"])] "room"
            (old ++ ((some ["lamp"] : Option (List String)).getD []).map J.str ++
              [J.obj [("id", J.str "x"), ("model", J.str "H1")]])) ∧
        (∀ k, k ≠ "room" →
          dget (dictSet [("room", [J.str "lamp"])] "room"
            (old ++ ((some ["lamp"] : Option (List String)).getD []).map J.str ++
              [J.obj [("id", J.str "x"), ("model", J.str "H1")]])) k =
            dget ([("room", [J.str "lamp"])] : List (String × List J)) k) ∧
        dget (dictSet [("room", [J.str "lamp"])] "room"
            (old ++ ((some ["lamp"] : Option (List String)).getD []).map J.str ++
              [J.obj [("id", J.str "x"), ("model", J.str "H1")]])) "room" =
          some (old ++ ((some ["lamp"] : Option (List String)).getD []).map J.str ++
            [J.obj [("id", J.str "x"), ("model", J.str "H1")]])) :=
  ⟨rfl, rfl,
    groups_add_members_spec [("lamp", ⟨"d1", "H6008"⟩)] [("room", [J.str "lamp"])]
      "room" (some ["lamp"]) (some ["x:H1"])
      [J.obj [("id", J.str "x"), ("model", J.str "H1")]] rfl rfl⟩

/-- C4: removing a present nickname deletes its binding, leaves every other
binding intact, and prunes exactly the string members equal to that nickname
from every group's member list, keeping all other members (including inline
`{id, model}` members) in their original relative order; afterwards no group
contains the nickname as a string member. -/
theorem names_remove_spec
    (devmap : List (String × DeviceRef)) (groups : List (String × List J))
    (nick : String) (hmem : keyMem devmap nick = true)
    (hnd : (devmap.map Prod.fst).Nodup) :
    ∃ dm' gs', names_remove devmap groups nick = some (dm', gs') ∧
      dget dm' nick = none ∧
      (∀ k, k ≠ nick → dget dm' k = dget devmap k) ∧
      (∀ g ms, dget groups g = some ms →
        dget gs' g = some (ms.filter (keepMember nick)) ∧
        J.str nick ∉ ms.filter (keepMember nick) ∧
        (ms.filter (keepMember nick)).Sublist ms ∧
        (∀ m ∈ ms, keepMember nick m = true → m ∈ ms.filter (keepMember nick))) := by
  refine ⟨devmap.eraseP (fun p => p.1 == nick),
    groups.map (fun gp => (gp.1, gp.2.filter (keepMember nick))), ?_, ?_, ?_, ?_⟩
  · simp [names_remove, hmem]
  · exact dget_eraseP_self hnd
  · intro k hk
    exact dget_eraseP_ne devmap nick k hk
  · intro g ms hg
    refine ⟨?_, ?_, List.filter_sublist ms, ?_⟩
    · rw [dget_map_values (fun ms => ms.filter (keepMember nick)) groups g, hg]
      rfl
    · intro hcontra
      have := (List.mem_filter.mp hcontra).2
      simp [keepMember] at this
    · intro m hm hkeep
      exact List.mem_filter.mpr ⟨hm, hkeep⟩

theorem names_remove_spec_witness :
    ∃ dm' gs',
      names_remove [("lamp", ⟨"d1", "H6008"⟩)]
        [("g", [J.str "lamp", J.obj [("id", J.str "d1"), ("model", J.str "H1")]])]
        "lamp" = some (dm', gs') ∧
      dget dm' "lamp" = none ∧
      (∀ k, k ≠ "lamp" →
        dget dm' k =
          dget ([("lamp", ⟨"d1", "H6008"⟩)] : List (String × DeviceRef)) k) ∧
      (∀ g ms,
        dget ([("g", [J.str "lamp",
            J.obj [("id", J.str "d1"), ("model", J.str "H1")]])] :
          List (String × List J)) g = some ms →
        dget gs' g = some (ms.filter (keepMember "lamp")) ∧
        J.str "lamp" ∉ ms.filter (keepMember "lamp") ∧
        (ms.filter (keepMember "lamp")).Sublist ms ∧
        (∀ m ∈ ms, keepMember "lamp" m = true →
          m ∈ ms.filter (keepMember "lamp"))) :=
  names_remove_spec [("lamp", ⟨"d1", "H6008"⟩)]
    [("g", [J.str "lamp", J.obj [("id", J.str "d1"), ("model", J.str "H1")]])]
    "lamp" rfl (by decide)

/-- C7 counterexample: a parsed document whose `_groups` section is a mapping
whose value is not a sequence (here `{"g": 5}`) loads successfully — the
loader does not fail with `ConfigCorrupt`, contradicting the claim that a
group section that is not a mapping-of-sequences fails. -/
theorem load_config_groups_nonseq_counterexample :
    load_config_groups (.parsed [(GROUPS_KEY, J.obj [("g", J.num 5)])]) =
      .ok [("g", J.num 5)] := rfl

/-- C7 (amended): a missing file yields an empty registry (empty nickname
mapping and empty group mapping) rather than an error; a present but
syntactically malformed file fails with a `ConfigCorrupt` error carrying the
file path and the underlying parse error; a present group section that is a
mapping loads as-is (its values are not validated at load time); and a
present group section that is not a mapping fails with `ConfigCorrupt`. -/
theorem load_config_spec :
    (load_config_devices .missing = .ok [] ∧
      load_config_groups .missing = .ok []) ∧
    (∀ e, load_config_devices (.malformed e) =
        .error (.configCorrupt CONFIG_PATH e) ∧
      load_config_groups (.malformed e) =
        .error (.configCorrupt CONFIG_PATH e)) ∧
    (∀ doc, dget doc GROUPS_KEY = none →
      load_config_groups (.parsed doc) = .ok []) ∧
    (∀ doc kvs, dget doc GROUPS_KEY = some (.obj kvs) →
      load_config_groups (.parsed doc) = .ok kvs) ∧
    (∀ doc v, dget doc GROUPS_KEY = some v → (∀ kvs, v ≠ .obj kvs) →
      load_config_groups (.parsed doc) =
        .error (.configCorrupt CONFIG_PATH
          ("has invalid " ++ GROUPS_KEY ++ " format. Expected an object."))) := by
  refine ⟨⟨rfl, rfl⟩, fun e => ⟨rfl, rfl⟩, ?_, ?_, ?_⟩
  · intro doc h
    simp [load_config_groups, load_raw_config, h]
  · intro doc kvs h
    simp [load_config_groups, load_raw_config, h]
  · intro doc v h hnobj
    cases v with
    | obj kvs => exact absurd rfl (hnobj kvs)
    | str s => simp [load_config_groups, load_raw_config, h]
    | num n => simp [load_config_groups, load_raw_config, h]
    | arr xs => simp [load_config_groups, load_raw_config, h]

theorem load_config_spec_witness :
    load_config_groups (.parsed [(GROUPS_KEY, J.num 3)]) =
      .error (.configCorrupt CONFIG_PATH
        ("has invalid " ++ GROUPS_KEY ++ " format. Expected an object.")) :=
  load_config_spec.2.2.2.2 [(GROUPS_KEY, J.num 3)] (J.num 3) rfl
    (fun kvs h => by cases h)

/-- C2: saving a well-formed registry and loading it back recovers exactly
the nicknames and groups that were saved — the loaded nickname mapping is a
permutation (the key-sorted form) of the saved one, binding for binding, the
group mapping is recovered verbatim, and saving the loaded registry again
writes the identical document. -/
theorem save_load_roundtrip
    (devmap : List (String × DeviceRef)) (groups : List (String × J))
    (hnd : (devmap.map Prod.fst).Nodup)
    (hng : GROUPS_KEY ∉ devmap.map Prod.fst) :
    load_config_devices (.parsed (save_full_config devmap groups)) =
      .ok (sortByKey devmap) ∧
    (sortByKey devmap).Perm devmap ∧
    (∀ k, dget (sortByKey devmap) k = dget devmap k) ∧
    load_config_groups (.parsed (save_full_config devmap groups)) = .ok groups ∧
    save_full_config (sortByKey devmap) groups = save_full_config devmap groups := by
  have hsave := save_full_config_eq devmap groups hng
  have hApayload : keyMem (sortByKey (devmap.map (fun kv => (kv.1, devToJ kv.2))))
      GROUPS_KEY = false := by
    rw [keyMem_of_perm (sortByKey_perm _) GROUPS_KEY, keyMem_map_values]
    exact keyMem_eq_false_iff.mpr hng
  refine ⟨?_, sortByKey_perm devmap, ?_, ?_, ?_⟩
  · rw [hsave, load_devices_parsed, List.filterMap_append,
      filterMap_load_save devmap hng]
    simp
  · intro k
    exact dget_perm (sortByKey_perm devmap)
      (((sortByKey_perm devmap).map Prod.fst).nodup_iff.mpr hnd) k
  · have hdoc : dget (save_full_config devmap groups) GROUPS_KEY =
        some (.obj groups) := by
      rw [hsave, dget_append, dget_eq_none_iff.mpr hApayload]
      simp [dget_cons]
    simp [load_config_groups, load_raw_config, hdoc]
  · have hng' : GROUPS_KEY ∉ (sortByKey devmap).map Prod.fst := by
      intro h
      rcases List.mem_map.mp h with ⟨p, hp, he⟩
      exact hng (he ▸ List.mem_map_of_mem Prod.fst
        ((sortByKey_perm devmap).mem_iff.mp hp))
    rw [save_full_config_eq _ _ hng', hsave]
    have : (sortByKey devmap).map (fun kv => (kv.1, devToJ kv.2)) =
        sortByKey (devmap.map (fun kv => (kv.1, devToJ kv.2))) :=
      sortByKey_map_values devToJ devmap
    rw [this, sortByKey_idem]

theorem save_load_roundtrip_witness :
    load_config_devices (.parsed (save_full_config
        [("b", ⟨"d1", "M1"⟩), ("a", ⟨"d2", "M2"⟩)] [("g", J.arr [J.str "a"])])) =
      .ok (sortByKey [("b", ⟨"d1", "M1"⟩), ("a", ⟨"d2", "M2"⟩)]) ∧
    (sortByKey [("b", (⟨"d1", "M1"⟩ : DeviceRef)), ("a", ⟨"d2", "M2"⟩)]).Perm
      [("b", ⟨"d1", "M1"⟩), ("a", ⟨"d2", "M2"⟩)] ∧
    (∀ k, dget (sortByKey [("b", (⟨"d1", "M1"⟩ : DeviceRef)), ("a", ⟨"d2", "M2"⟩)]) k =
      dget ([("b", ⟨"d1", "M1"⟩), ("a", ⟨"d2", "M2"⟩)] : List (String × DeviceRef)) k) ∧
    load_config_groups (.parsed (save_full_config
        [("b", ⟨"d1", "M1"⟩), ("a", ⟨"d2", "M2"⟩)] [("g", J.arr [J.str "a"])])) =
      .ok [("g", J.arr [J.str "a"])] ∧
    save_full_config (sortByKey [("b", ⟨"d1", "M1"⟩), ("a", ⟨"d2", "M2"⟩)])
        [("g", J.arr [J.str "a"])] =
      save_full_config [("b", ⟨"d1", "M1"⟩), ("a", ⟨"d2", "M2"⟩)]
        [("g", J.arr [J.str "a"])] :=
  save_load_roundtrip [("b", ⟨"d1", "M1"⟩), ("a", ⟨"d2", "M2"⟩)]
    [("g", J.arr [J.str "a"])] (by decide) (by decide)

theorem dictSet_of_keyMem {α : Type} {l : List (String × α)} {k : String}
    (h : keyMem l k = true) (v : α) :
    dictSet l k v = l.map (fun p => if p.1 = k then (k, v) else p) := by
  simp [dictSet, h]

theorem load_devices_skips_key (doc : List (String × J)) :
    dget (doc.filterMap (fun kv =>
      if kv.1 = GROUPS_KEY then none
      else (devEntryOf kv.2).map (fun d => (kv.1, d)))) GROUPS_KEY = none := by
  apply dget_of_forall_ne
  intro p hp
  rcases List.mem_filterMap.mp hp with ⟨kv, hkv, hres⟩
  by_cases h : kv.1 = GROUPS_KEY
  · simp [h] at hres
  · rw [if_neg h] at hres
    rcases Option.map_eq_some'.mp hres with ⟨dd, _, hpd⟩
    rw [← hpd]
    exact h

/-- C10: a nickname named by the reserved key `_groups` can never be
observed: loading never produces a nickname binding under `_groups`, and
saving unconditionally overwrites the `_groups` key with the group mapping,
so adding a nickname named `_groups` writes a document whose `_groups` entry
is the group mapping, whose loadable nickname mapping has no `_groups`
binding and is unchanged from the original nickname mapping (the add is
silently lost), and whose group mapping is intact. -/
theorem names_add_groups_key_lost
    (devmap : List (String × DeviceRef)) (groups : List (String × J))
    (d m : String) (hnd : (devmap.map Prod.fst).Nodup)
    (hng : GROUPS_KEY ∉ devmap.map Prod.fst) :
    (∃ dm', load_config_devices (.parsed (names_add devmap groups GROUPS_KEY d m)) =
        .ok dm' ∧
      dget dm' GROUPS_KEY = none ∧
      (∀ k, dget dm' k = dget devmap k)) ∧
    dget (names_add devmap groups GROUPS_KEY d m) GROUPS_KEY =
      some (.obj groups) ∧
    load_config_groups (.parsed (names_add devmap groups GROUPS_KEY d m)) =
      .ok groups ∧
    (∀ fs dm', load_config_devices fs = .ok dm' → dget dm' GROUPS_KEY = none) := by
  have hkm : keyMem devmap GROUPS_KEY = false := keyMem_eq_false_iff.mpr hng
  have hds : dictSet devmap GROUPS_KEY ⟨d, m⟩ =
      devmap ++ [(GROUPS_KEY, (⟨d, m⟩ : DeviceRef))] := by
    simp [dictSet, hkm]
  have hdoc : names_add devmap groups GROUPS_KEY d m =
      dictSet (sortByKey ((devmap ++ [(GROUPS_KEY, (⟨d, m⟩ : DeviceRef))]).map
        (fun kv => (kv.1, devToJ kv.2)))) GROUPS_KEY (J.obj groups) := by
    unfold names_add save_full_config
    rw [hds]
  have hdgdoc : dget (names_add devmap groups GROUPS_KEY d m) GROUPS_KEY =
      some (.obj groups) := by
    rw [hdoc]
    exact dget_dictSet_self _ _ _
  have hskip : ∀ fs dm', load_config_devices fs = .ok dm' →
      dget dm' GROUPS_KEY = none := by
    intro fs dm' h
    cases fs with
    | missing =>
      cases h
      rfl
    | malformed e => cases h
    | parsed doc =>
      rw [load_devices_parsed] at h
      cases h
      exact load_devices_skips_key doc
  refine ⟨?_, hdgdoc, by simp [load_config_groups, load_raw_config, hdgdoc], hskip⟩
  refine ⟨(names_add devmap groups GROUPS_KEY d m).filterMap (fun kv =>
      if kv.1 = GROUPS_KEY then none
      else (devEntryOf kv.2).map (fun dd => (kv.1, dd))), load_devices_parsed _, ?_, ?_⟩
  · exact load_devices_skips_key _
  · -- the loadable nickname mapping is a permutation of the original devmap
    have hkpayload : keyMem (sortByKey ((devmap ++ [(GROUPS_KEY, (⟨d, m⟩ : DeviceRef))]).map
        (fun kv => (kv.1, devToJ kv.2)))) GROUPS_KEY = true := by
      rw [keyMem_of_perm (sortByKey_perm _) GROUPS_KEY, List.map_append,
        keyMem_append]
      simp [keyMem_cons]
    have hperm : (names_add devmap groups GROUPS_KEY d m).filterMap (fun kv =>
        if kv.1 = GROUPS_KEY then none
        else (devEntryOf kv.2).map (fun dd => (kv.1, dd))) |>.Perm devmap := by
      rw [hdoc, dictSet_of_keyMem hkpayload, List.filterMap_map]
      have hstep := ((sortByKey_perm ((devmap ++ [(GROUPS_KEY, (⟨d, m⟩ : DeviceRef))]).map
        (fun kv => (kv.1, devToJ kv.2)))).filterMap
        ((fun kv => if kv.1 = GROUPS_KEY then none
          else (devEntryOf kv.2).map (fun dd => (kv.1, dd))) ∘
         (fun p => if p.1 = GROUPS_KEY then (GROUPS_KEY, J.obj groups) else p)))
      refine hstep.trans ?_
      have hX : ((devmap ++ [(GROUPS_KEY, (⟨d, m⟩ : DeviceRef))]).map
          (fun kv => (kv.1, devToJ kv.2))) =
          devmap.map (fun kv => (kv.1, devToJ kv.2)) ++
            [(GROUPS_KEY, devToJ (⟨d, m⟩ : DeviceRef))] := by
        simp
      rw [hX, List.filterMap_append, List.filterMap_map]
      have h2 : (([(GROUPS_KEY, devToJ (⟨d, m⟩ : DeviceRef))] : List (String × J)).filterMap
          ((fun kv => if kv.1 = GROUPS_KEY then none
            else (devEntryOf kv.2).map (fun dd => (kv.1, dd))) ∘
           (fun p => if p.1 = GROUPS_KEY then (GROUPS_KEY, J.obj groups) else p))) =
          [] := by
        simp [Function.comp]
      have h1 : devmap.filterMap
          (((fun kv => if kv.1 = GROUPS_KEY then none
            else (devEntryOf kv.2).map (fun dd => (kv.1, dd))) ∘
           (fun p => if p.1 = GROUPS_KEY then (GROUPS_KEY, J.obj groups) else p)) ∘
           (fun kv => (kv.1, devToJ kv.2))) = devmap := by
        apply filterMap_eq_self_of
        intro q hq
        have hqk : q.1 ≠ GROUPS_KEY := by
          intro e
          exact hng (e ▸ List.mem_map_of_mem Prod.fst hq)
        simp [Function.comp, hqk, devEntryOf_devToJ]
      rw [h2, h1, List.append_nil]
    intro k
    exact dget_perm hperm
      ((hperm.map Prod.fst).nodup_iff.mpr hnd) k

theorem names_add_groups_key_lost_witness :
    (∃ dm', load_config_devices (.parsed (names_add
        [("lamp", ⟨"d1", "H6008"⟩)] [("room", J.arr [J.str "lamp"])]
        GROUPS_KEY "d9" "H1")) = .ok dm' ∧
      dget dm' GROUPS_KEY = none ∧
      (∀ k, dget dm' k =
        dget ([("lamp", ⟨"d1", "H6008"⟩)] : List (String × DeviceRef)) k)) ∧
    dget (names_add [("lamp", ⟨"d1", "H6008"⟩)] [("room", J.arr [J.str "lamp"])]
        GROUPS_KEY "d9" "H1") GROUPS_KEY =
      some (.obj [("room", J.arr [J.str "lamp"])]) ∧
    load_config_groups (.parsed (names_add [("lamp", ⟨"d1", "H6008"⟩)]
        [("room", J.arr [J.str "lamp"])] GROUPS_KEY "d9" "H1")) =
      .ok [("room", J.arr [J.str "lamp"])] ∧
    (∀ fs dm', load_config_devices fs = .ok dm' → dget dm' GROUPS_KEY = none) :=
  names_add_groups_key_lost [("lamp", ⟨"d1", "H6008"⟩)]
    [("room", J.arr [J.str "lamp"])] "d9" "H1" (by decide) (by decide)

end Govee
